import Mathlib

/-!
# Verification of `tz_aware_dt` (timezone-aware datetime helpers)

Shallow embedding of `tz_aware_dt/tz_aware_dt.py` and `tz_aware_dt/utils.py`.

Strings are modelled as `List Char` (`Str`).  The Python standard-library
collaborators (`_strptime.TimeRE`, `datetime.strptime`, `dateutil.tz.gettz`,
the host IANA zone database) are modelled faithfully to the behaviour the
repository documents and relies on:

* `TimeRE` compiles a strptime-style format into a regular expression with
  named groups; the repository overrides the `%z` pattern to
  `[+-]\d\d:?[0-5]\d` and the `%Z` pattern to `[0-9A-Za-z_/+-]+`.  The
  matcher below implements Python's leftmost, priority-first backtracking
  semantics for exactly the directive sub-language the patterns use.
* `datetime.strptime` is modelled with the stock patterns; per the module
  docstring ("Python's default strptime only supports `[+-]\d\d[0-5]\d`",
  and `python_requires='~=3.6'` in setup.py) the stock `%z` pattern is the
  colon-less form, and stock `%Z` only matches a small set of host zone
  abbreviations (modelled as UTC/GMT) and never sets `tzinfo`.
* The host zone database is modelled as a finite list of IANA names, each
  with a fixed standard UTC offset (DST transitions are outside the model;
  no claim proved here depends on them).  The process-local timezone is a
  distinguished zone object.
-/

abbrev Str := List Char

/-- Two-digit zero padding, `'{:02d}'`. -/
def pad2 (n : Nat) : String := if n < 10 then "0" ++ Nat.repr n else Nat.repr n

def isD (c : Char) : Bool := c.isDigit

def between (lo hi c : Char) : Bool := lo ≤ c && c ≤ hi

/-- Digits of a token to a number (tokens are guaranteed all-digit by the
patterns that capture them). -/
def digitsToNat (t : Str) : Nat := t.foldl (fun a c => a * 10 + (c.toNat - '0'.toNat)) 0

/-- Length of the longest prefix whose characters all satisfy `p`. -/
def countLeading (p : Char → Bool) : Str → Nat
  | [] => 0
  | c :: r => if p c then countLeading p r + 1 else 0

/-- Python `str.replace(pat, rep)`: non-overlapping, left to right. -/
def replaceAllAux (pat rep : Str) : Nat → Str → Str
  | 0, s => s
  | _ + 1, [] => []
  | fuel + 1, c :: rest =>
    if pat.isPrefixOf (c :: rest) then
      rep ++ replaceAllAux pat rep fuel (List.drop (pat.length - 1) rest)
    else
      c :: replaceAllAux pat rep fuel rest

def replaceAll (s pat rep : Str) : Str := replaceAllAux pat rep s.length s

-- region format directives

/-- Directives appearing in a compiled strptime-style format: literal
characters, whitespace runs (`TimeRE` rewrites a whitespace run to `\s+`),
and the field placeholders used by this repository's formats. -/
inductive Dir
  | lit (c : Char)
  | ws
  | Y | m | d | H | M | S | f | z | Z
  deriving DecidableEq, Repr

/-- Placeholder letter for a directive (the regex group name), if any. -/
def Dir.groupName : Dir → Option Char
  | .lit _ => none
  | .ws => none
  | .Y => some 'Y'
  | .m => some 'm'
  | .d => some 'd'
  | .H => some 'H'
  | .M => some 'M'
  | .S => some 'S'
  | .f => some 'f'
  | .z => some 'z'
  | .Z => some 'Z'

def dirOfChar : Char → Option Dir
  | 'Y' => some .Y
  | 'm' => some .m
  | 'd' => some .d
  | 'H' => some .H
  | 'M' => some .M
  | 'S' => some .S
  | 'f' => some .f
  | 'z' => some .z
  | 'Z' => some .Z
  | _ => none

/-- Compile a format string to directives (`TimeRE.pattern`): `%%` is a
literal percent, a whitespace run becomes one `\s+`, unknown directives are
a `KeyError`/`ValueError` (`none`). -/
def fmtToDirs : Str → Option (List Dir)
  | [] => some []
  | '%' :: rest =>
    match rest with
    | [] => none
    | c :: rest2 =>
      if c = '%' then (fmtToDirs rest2).map (Dir.lit '%' :: ·)
      else
        match dirOfChar c with
        | some dd => (fmtToDirs rest2).map (dd :: ·)
        | none => none
  | c :: rest =>
    if c.isWhitespace then
      match fmtToDirs rest with
      | some (Dir.ws :: ds) => some (Dir.ws :: ds)
      | some ds => some (Dir.ws :: ds)
      | none => none
    else
      (fmtToDirs rest).map (Dir.lit c :: ·)

-- endregion

-- region regex matching (Python `re` leftmost priority-first semantics)

/-- Candidate `(token, rest)` splits for one directive against the input,
in the priority order Python's backtracking regex engine tries them. -/
def greedyTakes (p : Char → Bool) (cap : Option Nat) (s : Str) : List (Str × Str) :=
  let n := match cap with
    | some k => min (countLeading p s) k
    | none => countLeading p s
  (List.range n).map fun i => (s.take (n - i), s.drop (n - i))

def pairCand (p1 p2 : Char → Bool) : Str → List (Str × Str)
  | a :: b :: r => if p1 a && p2 b then [([a, b], r)] else []
  | _ => []

def singleCand (p : Char → Bool) : Str → List (Str × Str)
  | a :: r => if p a then [([a], r)] else []
  | _ => []

/-- Case-insensitive fixed-word candidate (`re.IGNORECASE` is set by
`TimeRE.compile`). -/
def wordCand (w : Str) (s : Str) : List (Str × Str) :=
  if (w.map Char.toLower).isPrefixOf (s.map Char.toLower) then
    [(s.take w.length, s.drop w.length)]
  else []

/-- Characters of the overridden `%Z` pattern `[0-9A-Za-z_/+-]+`. -/
def isTzNameChar (c : Char) : Bool :=
  c.isAlphanum || c = '_' || c = '/' || c = '+' || c = '-'

/-- `%z` candidates.  Overridden pattern (`ov = true`): `[+-]\d\d:?[0-5]\d`
(the greedy `:?` tries the colon form first).  Stock pattern (`ov = false`,
per the module docstring / Python 3.6): `[+-]\d\d[0-5]\d`. -/
def zColonCand : Str → List (Str × Str)
  | sg :: a :: b :: ':' :: c :: d2 :: r =>
    if (sg = '+' || sg = '-') && isD a && isD b && between '0' '5' c && isD d2 then
      [([sg, a, b, ':', c, d2], r)]
    else []
  | _ => []

def zPlainCand : Str → List (Str × Str)
  | sg :: a :: b :: c :: d2 :: r =>
    if (sg = '+' || sg = '-') && isD a && isD b && between '0' '5' c && isD d2 then
      [([sg, a, b, c, d2], r)]
    else []
  | _ => []

def zCands (ov : Bool) (s : Str) : List (Str × Str) :=
  if ov then zColonCand s ++ zPlainCand s else zPlainCand s

/-- `%Y = \d\d\d\d`. -/
def yCand : Str → List (Str × Str)
  | a :: b :: c :: d2 :: r =>
    if isD a && isD b && isD c && isD d2 then [([a, b, c, d2], r)] else []
  | _ => []

/-- The host-locale zone abbreviations matched by the stock `%Z` pattern
(`LocaleTime.timezone` plus `utc`/`gmt`; modelled as the portable pair). -/
def stockZNames : List Str := ['U', 'T', 'C'] :: ['G', 'M', 'T'] :: []

/-- Candidates for one directive.  `ov = true` uses the repository's
overridden `%z`/`%Z` patterns, `ov = false` the stock ones.  The numeric
field alternations are the stock `TimeRE` patterns, e.g.
`%m = 1[0-2]|0[1-9]|[1-9]`. -/
def candidates (ov : Bool) : Dir → Str → List (Str × Str)
  | .lit c, s => singleCand (fun c2 => c2.toLower = c.toLower) s
  | .ws, s => greedyTakes (fun c => c.isWhitespace) none s
  | .Y, s => yCand s
  | .m, s =>
    pairCand (· = '1') (between '0' '2') s ++ pairCand (· = '0') (between '1' '9') s ++
      singleCand (between '1' '9') s
  | .d, s =>
    pairCand (· = '3') (between '0' '1') s ++ pairCand (between '1' '2') isD s ++
      pairCand (· = '0') (between '1' '9') s ++ singleCand (between '1' '9') s
  | .H, s =>
    pairCand (· = '2') (between '0' '3') s ++ pairCand (between '0' '1') isD s ++
      singleCand isD s
  | .M, s => pairCand (between '0' '5') isD s ++ singleCand isD s
  | .S, s =>
    pairCand (· = '6') (between '0' '1') s ++ pairCand (between '0' '5') isD s ++
      singleCand isD s
  | .f, s => greedyTakes isD (some 6) s
  | .z, s => zCands ov s
  | .Z, s =>
    if ov then greedyTakes isTzNameChar none s
    else stockZNames.foldr (fun w acc => wordCand w s ++ acc) []

/-- First success over a list of alternatives (regex alternation order). -/
def firstSome (l : List α) (f : α → Option β) : Option β :=
  match l with
  | [] => none
  | a :: rest =>
    match f a with
    | some b => some b
    | none => firstSome rest f

/-- Token bindings contributed by one directive. -/
def bindOf (dd : Dir) (t : Str) : List (Char × Str) :=
  match dd.groupName with
  | some g => [(g, t)]
  | none => []

/-- Backtracking matcher: Python `re.match` of the compiled pattern against
the input, returning the named-group bindings and the unconsumed suffix of
the priority-first match. -/
def matchDirs (ov : Bool) : List Dir → Str → Option (List (Char × Str) × Str)
  | [], s => some ([], s)
  | dd :: ds, s =>
    firstSome (candidates ov dd s) fun tr =>
      (matchDirs ov ds tr.2).map fun br => (bindOf dd tr.1 ++ br.1, br.2)

-- endregion

-- region errors and tokenizer

/-- Errors surfaced by the library: `ValueError` (parse failures, carrying
the message the retry logic inspects) and the `RuntimeError` raised when
`use_dateparser` is requested without the dateparser package (distinct from
a generic `ImportError`). -/
inductive Err
  | valueError (msg : Str)
  | missingDependency
  deriving DecidableEq, Repr

abbrev TokenMap := List (Char × Str)

def dnmfPhrase : Str := ('d' :: 'o' :: 'e' :: 's' :: ' ' :: 'n' :: 'o' :: 't' :: ' ' ::
  'm' :: 'a' :: 't' :: 'c' :: 'h' :: ' ' :: 'f' :: 'o' :: 'r' :: 'm' :: 'a' :: 't' :: [])

/-- Python's `in` on strings: `pat` occurs as a contiguous substring. -/
def substrCheck (pat : Str) : Str → Bool
  | [] => pat.isEmpty
  | c :: r => pat.isPrefixOf (c :: r) || substrCheck pat r

/-- `'does not match format' in str(e)` — the retry trigger in
`_parse_dt_from_str`. -/
def errHasDNMF : Err → Bool
  | .valueError m => substrCheck dnmfPhrase m
  | .missingDependency => false

def noMatchMsgTok (s fmt : Str) : Str :=
  ('t' :: 'i' :: 'm' :: 'e' :: ' ' :: 'd' :: 'a' :: 't' :: 'a' :: '=' :: []) ++ s ++
    (' ' :: []) ++ dnmfPhrase ++ ('=' :: []) ++ fmt

def noMatchMsgStrptime (s fmt : Str) : Str :=
  ('t' :: 'i' :: 'm' :: 'e' :: ' ' :: 'd' :: 'a' :: 't' :: 'a' :: ' ' :: []) ++ s ++
    (' ' :: []) ++ dnmfPhrase ++ (' ' :: []) ++ fmt

def remainderMsg (rest : Str) : Str :=
  ('u' :: 'n' :: 'c' :: 'o' :: 'n' :: 'v' :: 'e' :: 'r' :: 't' :: 'e' :: 'd' :: ' ' ::
    'd' :: 'a' :: 't' :: 'a' :: ' ' :: 'r' :: 'e' :: 'm' :: 'a' :: 'i' :: 'n' :: 's' ::
    ':' :: ' ' :: []) ++ rest

def badDirectiveMsg : Str :=
  ('b' :: 'a' :: 'd' :: ' ' :: 'd' :: 'i' :: 'r' :: 'e' :: 'c' :: 't' :: 'i' :: 'v' ::
    'e' :: [])

/-- `_tokenize_datetime`: compile the format with the overridden `%z`/`%Z`
patterns, match, fail if there is no match or the match does not consume
the whole input (reporting the unconsumed remainder), else return the
group dictionary. -/
def tokenize_datetime (s fmt : Str) : Except Err TokenMap :=
  match fmtToDirs fmt with
  | none => .error (.valueError badDirectiveMsg)
  | some ds =>
    match matchDirs true ds s with
    | none => .error (.valueError (noMatchMsgTok s fmt))
    | some (tm, rest) =>
      if rest = [] then .ok tm else .error (.valueError (remainderMsg rest))

-- endregion

-- region datetime model

/-- A naive timestamp: civil wall-clock fields plus microseconds. -/
structure NaiveDT where
  year : Nat
  month : Nat
  day : Nat
  hour : Nat
  minute : Nat
  second : Nat
  micro : Nat
  deriving DecidableEq, Repr

/-- A concrete timezone object: a named IANA zone from the host database, a
fixed UTC offset (minutes), or the process-local zone (`TZ_LOCAL`). -/
inductive Tz
  | iana (nm : Str)
  | offset (minutes : Int)
  | localZone
  deriving DecidableEq, Repr

/-- A (possibly aware) datetime object; `tz = none` is naive. -/
structure DT where
  naive : NaiveDT
  tz : Option Tz
  deriving DecidableEq, Repr

/-- The host IANA timezone database, modelled as the finite set of names the
development refers to.  Strings outside this list are unresolvable, like
`gettz` returning `None`. -/
def ianaNames : List Str :=
  "UTC".toList :: "GMT".toList :: "America/New_York".toList :: "America/Chicago".toList ::
    "Asia/Hong_Kong".toList :: "America/Denver".toList :: "Europe/London".toList :: []

/-- `dateutil.tz.gettz`: resolve an IANA name against the host database,
`none` when the name is unknown. -/
def gettz (s : Str) : Option Tz :=
  if ianaNames.contains s then some (.iana s) else none

/-- Fixed standard UTC offset (minutes) of the modelled zones; the model
ignores DST transitions (no claim proved here depends on them). -/
def zoneStdOffsetMin : Str → Int := fun nm =>
  if nm = "America/New_York".toList then -300
  else if nm = "America/Chicago".toList then -360
  else if nm = "America/Denver".toList then -420
  else if nm = "Asia/Hong_Kong".toList then 480
  else 0

/-- The host's configured local zone offset; the model fixes the host zone
at UTC (the claims proved are independent of this choice). -/
def localOffsetMin : Int := 0

def tzOffsetMin : Tz → Int
  | .iana nm => zoneStdOffsetMin nm
  | .offset k => k
  | .localZone => localOffsetMin

/-- Days from civil date to 1970-01-01 (proleptic Gregorian). -/
def daysFromCivil (y m dd : Int) : Int :=
  let y2 := if m ≤ 2 then y - 1 else y
  let era := Int.fdiv y2 400
  let yoe := y2 - era * 400
  let mp := if m > 2 then m - 3 else m + 9
  let doy := Int.fdiv (153 * mp + 2) 5 + dd - 1
  let doe := yoe * 365 + Int.fdiv yoe 4 - Int.fdiv yoe 100 + doy
  era * 146097 + doe - 719468

/-- Civil date from days since 1970-01-01. -/
def civilFromDays (z0 : Int) : Int × Int × Int :=
  let z := z0 + 719468
  let era := Int.fdiv z 146097
  let doe := z - era * 146097
  let yoe := Int.fdiv (doe - Int.fdiv doe 1460 + Int.fdiv doe 36524 - Int.fdiv doe 146096) 365
  let y := yoe + era * 400
  let doy := doe - (365 * yoe + Int.fdiv yoe 4 - Int.fdiv yoe 100)
  let mp := Int.fdiv (5 * doy + 2) 153
  let dd := doy - Int.fdiv (153 * mp + 2) 5 + 1
  let m := if mp < 10 then mp + 3 else mp - 9
  (if m ≤ 2 then y + 1 else y, m, dd)

/-- Exact microseconds since the epoch of the wall-clock fields read as UTC. -/
def naiveEpochMicro (n : NaiveDT) : Int :=
  daysFromCivil (Int.ofNat n.year) (Int.ofNat n.month) (Int.ofNat n.day) * 86400000000 +
    (Int.ofNat n.hour * 3600 + Int.ofNat n.minute * 60 + Int.ofNat n.second) * 1000000 +
    Int.ofNat n.micro

/-- `datetime.timestamp()` as an exact integer count of microseconds since
the epoch (a naive datetime is interpreted in the local zone). -/
def timestampMicro (dt : DT) : Int :=
  naiveEpochMicro dt.naive -
    (match dt.tz with
      | some t => tzOffsetMin t
      | none => localOffsetMin) * 60000000

/-- `datetime.fromtimestamp(µs)` with no `tz` argument: naive local wall
clock. -/
def fromtimestampNaive (mu : Int) : NaiveDT :=
  let lmu := mu + localOffsetMin * 60000000
  let day := Int.fdiv lmu 86400000000
  let rem := (lmu - day * 86400000000).toNat
  let ymd := civilFromDays day
  { year := ymd.1.toNat, month := ymd.2.1.toNat, day := ymd.2.2.toNat
    hour := rem / 3600000000 % 24
    minute := rem / 60000000 % 60
    second := rem / 1000000 % 60
    micro := rem % 1000000 }

def isLeap (y : Nat) : Bool := y % 4 = 0 && (y % 100 ≠ 0 || y % 400 = 0)

def daysInMonth (y m : Nat) : Nat :=
  if m = 2 then (if isLeap y then 29 else 28)
  else if m = 4 || m = 6 || m = 9 || m = 11 then 30
  else 31

-- endregion

-- region strptime

/-- Offset minutes from a `%z` token `±HHMM` (any colon already absent at
this point under the stock pattern; tolerate one for totality). -/
def parseOffsetTok (t : Str) : Int :=
  let ds := t.filter (fun c => ¬ c = ':')
  match ds with
  | sg :: a :: b :: c :: dd :: [] =>
    let mins : Int := Int.ofNat (digitsToNat (a :: b :: [])) * 60 + Int.ofNat (digitsToNat (c :: dd :: []))
    if sg = '-' then -mins else mins
  | _ => 0

def tokNat (tm : TokenMap) (g : Char) (dflt : Nat) : Nat :=
  match tm.lookup g with
  | some t => digitsToNat t
  | none => dflt

/-- Microseconds from a `%f` token: right-padded with zeros to 6 digits. -/
def fracMicro (tm : TokenMap) : Nat :=
  match tm.lookup 'f' with
  | some t => digitsToNat t * 10 ^ (6 - t.length)
  | none => 0

/-- Build the datetime from matched groups, with the range validation the
`datetime` constructor performs (those `ValueError`s do not contain the
phrase `does not match format`, so they are never retried). -/
def buildDT (tm : TokenMap) : Except Err DT :=
  let y := tokNat tm 'Y' 1900
  let mo := tokNat tm 'm' 1
  let dd := tokNat tm 'd' 1
  let hh := tokNat tm 'H' 0
  let mi := tokNat tm 'M' 0
  let ss := tokNat tm 'S' 0
  if y = 0 then .error (.valueError ("year 0 is out of range".toList))
  else if dd > daysInMonth y mo then
    .error (.valueError ("day is out of range for month".toList))
  else if ss > 59 then .error (.valueError ("second must be in 0..59".toList))
  else
    .ok { naive := { year := y, month := mo, day := dd, hour := hh, minute := mi,
                     second := ss, micro := fracMicro tm }
          tz := (tm.lookup 'z').map (fun t => Tz.offset (parseOffsetTok t)) }

/-- `datetime.strptime` with the stock patterns: `%z` never sets `tzinfo`
unless it is the colon-less offset form, and a matched `%Z` name is
discarded (the behaviour the repository works around). -/
def strptime (s fmt : Str) : Except Err DT :=
  match fmtToDirs fmt with
  | none => .error (.valueError badDirectiveMsg)
  | some ds =>
    match matchDirs false ds s with
    | none => .error (.valueError (noMatchMsgStrptime s fmt))
    | some (tm, rest) =>
      if rest = [] then buildDT tm else .error (.valueError (remainderMsg rest))

-- endregion

-- region timezone resolver

/-- The `tz` argument of the public functions: `None`, a zone-name string,
or an already-resolved `tzinfo` object. -/
inductive TZArg
  | noTz
  | name (s : Str)
  | tzObj (t : Tz)
  deriving DecidableEq, Repr

/-- `TZ_LOCAL = gettz(get_localzone().key)`: the process-local zone, held as
process-wide state. -/
def TZ_LOCAL : Tz := .localZone

def TZ_UTC : Tz := .iana ("UTC".toList)

def DATETIME_FMT : Str := "%Y-%m-%d %H:%M:%S %Z".toList
def DATETIME_FMT_NO_TZ : Str := "%Y-%m-%d %H:%M:%S".toList
def ISO8601 : Str := "%Y-%m-%dT%H:%M:%SZ".toList
def DATE_FMT : Str := "%Y-%m-%d".toList
def TIME_FMT : Str := "%H:%M:%S %Z".toList

/-- `TZ_ALIAS_MAP = {'HKT': 'Asia/Hong_Kong', 'NYT': 'America/New_York'}`. -/
def TZ_ALIAS_MAP : List (Str × Str) :=
  ("HKT".toList, "Asia/Hong_Kong".toList) :: ("NYT".toList, "America/New_York".toList) :: []

/-- `_get_tz`: resolve via `gettz` for strings, pass `tzinfo` objects
through, `None` falls back to `TZ_LOCAL`; a string that `gettz` cannot
resolve is looked up in the alias table, and when that also misses the
function returns `None` (no exception is raised). -/
def get_tz : TZArg → Option Tz
  | .noTz => some TZ_LOCAL
  | .tzObj t => some t
  | .name s =>
    match gettz s with
    | some t => some t
    | none =>
      match TZ_ALIAS_MAP.lookup s with
      | some target => gettz target
      | none => none

/-- Python truthiness of the `tz` argument (`if tz:` in
`_parse_dt_from_str`): `None` and the empty string are falsy. -/
def tzTruthy : TZArg → Bool
  | .noTz => false
  | .name s => ¬ s.isEmpty
  | .tzObj _ => true

-- endregion

-- region the core parser

/-- `_recompile_datetime`: substitute each captured token value back for its
placeholder in the (possibly reduced) format string. -/
def recompile_datetime (tokens : TokenMap) (fmt : Str) : Str :=
  tokens.foldl (fun acc p => replaceAll acc ('%' :: p.1 :: []) p.2) fmt

/-- The search `(?<!%)%(%%)*(?!%)[zZ]`: the format contains a `z`/`Z`
directive preceded by an odd run of `%` signs (i.e. an unescaped `%z` or
`%Z`). -/
def hasUnescapedZAux : Str → Nat → Bool
  | [], _ => false
  | '%' :: rest, k => hasUnescapedZAux rest (k + 1)
  | c :: rest, k =>
    if (c = 'z' || c = 'Z') && k % 2 = 1 then true else hasUnescapedZAux rest 0

def hasUnescapedZDirective (fmt : Str) : Bool := hasUnescapedZAux fmt 0

def updateTok (g : Char) (v : Str) (tm : TokenMap) : TokenMap :=
  tm.map fun p => if p.1 = g then (g, v) else p

/-- The `try/except` around the strict parse in `_parse_dt_from_str`:
on a `does not match format` failure with captured tokens, strip a colon
from a captured `%z` token and retry, else drop the `%Z` placeholder and
retry, else re-raise. -/
def strptimeWithRetry (s fmt : Str) (tokens : TokenMap) : Except Err (DT × TokenMap) :=
  match strptime s fmt with
  | .ok dt => .ok (dt, tokens)
  | .error e =>
    if tokens.isEmpty then .error e
    else if errHasDNMF e then
      let zColon : Bool :=
        match tokens.lookup 'z' with
        | some v => v.contains ':'
        | none => false
      if zColon then
        let v := (tokens.lookup 'z').getD []
        let tokens2 := updateTok 'z' (v.filter (fun c => ¬ c = ':')) tokens
        match strptime (recompile_datetime tokens2 fmt) fmt with
        | .ok dt => .ok (dt, tokens2)
        | .error e2 => .error e2
      else if (tokens.lookup 'Z').isSome then
        let altFmt := replaceAll fmt ('%' :: 'Z' :: []) []
        match strptime (recompile_datetime tokens altFmt) altFmt with
        | .ok dt => .ok (dt, tokens)
        | .error e2 => .error e2
      else .error e
    else .error e

/-- `_parse_dt_from_str`: tokenize when the format has an unescaped
`%z`/`%Z`; when an explicit truthy `tz` was supplied, strip those
placeholders from the format and rebuild the input from the captured
tokens (discarding the captured offset/name); then strict-parse with the
retry relaxations. -/
def parse_dt_from_str (s fmt : Str) (tz : TZArg) : Except Err (DT × TokenMap) :=
  if hasUnescapedZDirective fmt then
    match tokenize_datetime s fmt with
    | .error e => .error e
    | .ok tokens =>
      if tzTruthy tz then
        let fmt2 := replaceAll (replaceAll fmt ('%' :: 'z' :: []) []) ('%' :: 'Z' :: []) []
        strptimeWithRetry (recompile_datetime tokens fmt2) fmt2 tokens
      else strptimeWithRetry s fmt tokens
  else strptimeWithRetry s fmt []

/-- The inputs `datetime_with_tz` accepts: a timestamp string, a numeric
epoch value (exact microseconds), or a datetime object. -/
inductive DTInput
  | str (s : Str)
  | num (epochMicro : Int)
  | dt (d : DT)
  deriving DecidableEq, Repr

/-- The external `dateparser` collaborator is outside the model; its parse
result is not needed by any claim (only its absence is). -/
def dateparserParse : DTInput → Option DT := fun _ => none

/-- The tail of `datetime_with_tz`: if the datetime is naive, attach a
zone — the explicit `tz` argument if given (resolved by `_get_tz`, which
may yield `None`), else a captured truthy `%Z` token, else `TZ_LOCAL`. -/
def attachTz (dt : DT) (tokens : TokenMap) (tz : TZArg) : DT :=
  if dt.tz.isSome then dt
  else
    let newTz : Option Tz :=
      match tz with
      | .noTz =>
        match tokens.lookup 'Z' with
        | some v => if v.isEmpty then some TZ_LOCAL else get_tz (.name v)
        | none => some TZ_LOCAL
      | _ => get_tz tz
    { naive := dt.naive, tz := newTz }

/-- `datetime_with_tz`: convert the input to a datetime and ensure a zone
is attached (the docstring's contract; see the theorems for where the
implementation falls short of it).  `dateparser_available` models whether
the optional collaborator can be imported at call time. -/
def datetime_with_tz (dt : DTInput) (fmt : Str) (tz : TZArg)
    (use_dateparser : Bool) (dateparser_available : Bool) : Except Err DT :=
  if use_dateparser then
    if dateparser_available then
      match dateparserParse dt with
      | some d0 => .ok (attachTz d0 [] tz)
      | none => .error (.valueError ("dateparser returned None".toList))
    else .error .missingDependency
  else
    match dt with
    | .str s =>
      match parse_dt_from_str s fmt tz with
      | .error e => .error e
      | .ok (d0, tokens) => .ok (attachTz d0 tokens tz)
    | .num mu => .ok (attachTz { naive := fromtimestampNaive mu, tz := none } [] tz)
    | .dt d0 => .ok (attachTz d0 [] tz)

/-- `str2epoch`: delegate to `datetime_with_tz`, then
`int(dt.timestamp() * 1000) // (1 if millis else 1000)` — `int()` truncates
toward zero (`Int.tdiv`), `//` floors (`Int.fdiv`); `timestamp()` is exact
here (microsecond-resolution rationals scaled to integers). -/
def str2epoch (dt : DTInput) (fmt : Str) (millis : Bool) (tz : TZArg) : Except Err Int :=
  match datetime_with_tz dt fmt tz false true with
  | .error e => .error e
  | .ok d0 =>
    .ok (Int.fdiv (Int.tdiv (timestampMicro d0) 1000) (if millis then 1 else 1000))

-- endregion

-- region duration formatter (utils.py)

/-- A Python number as passed to `format_duration`: the `isinstance(s, int)`
branch distinguishes `int` from `float`.  A `float` is carried by its exact
value `m / 2^e` seconds — every finite binary64 whose magnitude is below
`2^53` (in particular every one with a fractional part) is such a dyadic
rational, and on that range Python's float `abs`, `divmod` (exact `fmod`
remainder and exactly representable quotient) and `'{:05.2f}'` formatting
(correct rounding of the exact binary value) are exact-value operations, so
integer arithmetic on `m` and `e` models the branch faithfully. -/
inductive PyNum
  | int (n : Int)
  | float (m : Int) (e : Nat)
  deriving DecidableEq

/-- `'{:05.2f}'` rounding: CPython formats the exact value of the binary
double with correct rounding, ties going to even; this rounds the exact
nonnegative value `num / den` half to even to an integer. -/
def roundHalfEvenNat (num den : Nat) : Nat :=
  let q := num / den
  let r := num % den
  if 2 * r < den then q else if den < 2 * r then q + 1 else if q % 2 = 0 then q else q + 1

/-- `format_duration(seconds)`: sign of the input, then successive `divmod`
of the absolute value by 60, 60, 24; days are prepended as `Dd` when
positive; seconds are rendered `SS` for `int` input and `SS.ff`
(`'{:05.2f}'`) for `float` input.  For a float of exact value `a / 2^e`
(`a = m.natAbs`), `divmod(abs(s), 60)` yields the whole minutes
`a / (60·2^e)` and the exact remainder `(a % (60·2^e)) / 2^e`, whose
centisecond rendering rounds `100·(a % (60·2^e)) / 2^e` half to even. -/
def format_duration : PyNum → String
  | .int n =>
    let x := if n < 0 then "-" else ""
    let a := n.natAbs
    let m1 := a / 60
    let s := a % 60
    let h1 := m1 / 60
    let m := m1 % 60
    let dd := h1 / 24
    let h := h1 % 24
    let x2 := if dd > 0 then x ++ Nat.repr dd ++ "d" else x
    x2 ++ pad2 h ++ ":" ++ pad2 m ++ ":" ++ pad2 s
  | .float mIn e =>
    let x := if mIn < 0 then "-" else ""
    let a := mIn.natAbs
    let den := 2 ^ e
    let mFl := a / (60 * den)
    let sNum := a % (60 * den)
    let h1 := mFl / 60
    let m := mFl % 60
    let dd := h1 / 24
    let h := h1 % 24
    let x2 := if dd > 0 then x ++ Nat.repr dd ++ "d" else x
    let c := roundHalfEvenNat (100 * sNum) den
    x2 ++ pad2 h ++ ":" ++ pad2 m ++ ":" ++ pad2 (c / 100) ++ "." ++ pad2 (c % 100)

-- endregion

-- region declarative semantics of the compiled patterns

/-- The language of one directive, written out declaratively from the regex
patterns (independent of the backtracking matcher). -/
def dirTok (ov : Bool) : Dir → Str → Bool
  | .lit c, t =>
    match t with
    | c2 :: [] => c2.toLower = c.toLower
    | _ => false
  | .ws, t => ¬ t.isEmpty && t.all (fun c => c.isWhitespace)
  | .Y, t =>
    match t with
    | a :: b :: c :: d2 :: [] => isD a && isD b && isD c && isD d2
    | _ => false
  | .m, t =>
    match t with
    | a :: b :: [] => (a = '1' && between '0' '2' b) || (a = '0' && between '1' '9' b)
    | a :: [] => between '1' '9' a
    | _ => false
  | .d, t =>
    match t with
    | a :: b :: [] =>
      (a = '3' && between '0' '1' b) || (between '1' '2' a && isD b) ||
        (a = '0' && between '1' '9' b)
    | a :: [] => between '1' '9' a
    | _ => false
  | .H, t =>
    match t with
    | a :: b :: [] => (a = '2' && between '0' '3' b) || (between '0' '1' a && isD b)
    | a :: [] => isD a
    | _ => false
  | .M, t =>
    match t with
    | a :: b :: [] => between '0' '5' a && isD b
    | a :: [] => isD a
    | _ => false
  | .S, t =>
    match t with
    | a :: b :: [] => (a = '6' && between '0' '1' b) || (between '0' '5' a && isD b)
    | a :: [] => isD a
    | _ => false
  | .f, t => 1 ≤ t.length && t.length ≤ 6 && t.all isD
  | .z, t =>
    match t with
    | sg :: a :: b :: c :: d2 :: [] =>
      (sg = '+' || sg = '-') && isD a && isD b && between '0' '5' c && isD d2
    | sg :: a :: b :: co :: c :: d2 :: [] =>
      ov && co = ':' && (sg = '+' || sg = '-') && isD a && isD b && between '0' '5' c && isD d2
    | _ => false
  | .Z, t =>
    if ov then ¬ t.isEmpty && t.all isTzNameChar
    else stockZNames.any (fun w => t.map Char.toLower = w.map Char.toLower)

/-- Declarative end-to-end match of a directive list against an input,
producing the group bindings in order. -/
inductive MatchesD (ov : Bool) : List Dir → Str → TokenMap → Prop
  | nil : MatchesD ov [] [] []
  | cons {dd : Dir} {ds : List Dir} {t r : Str} {bs : TokenMap} :
      dirTok ov dd t = true → MatchesD ov ds r bs →
      MatchesD ov (dd :: ds) (t ++ r) (bindOf dd t ++ bs)

theorem firstSome_eq_some {l : List α} {f : α → Option β} {b : β}
    (h : firstSome l f = some b) : ∃ a ∈ l, f a = some b := by
  induction l with
  | nil => simp [firstSome] at h
  | cons a rest ih =>
    rw [firstSome] at h
    cases hfa : f a with
    | some b2 =>
      rw [hfa] at h
      exact ⟨a, List.mem_cons_self a rest, hfa.trans h⟩
    | none =>
      rw [hfa] at h
      obtain ⟨a2, ha2, hfa2⟩ := ih h
      exact ⟨a2, List.mem_cons_of_mem a ha2, hfa2⟩

theorem countLeading_le_length (p : Char → Bool) (s : Str) :
    countLeading p s ≤ s.length := by
  induction s with
  | nil => simp [countLeading]
  | cons c r ih =>
    rw [countLeading]
    split
    · simp only [List.length_cons]; omega
    · simp

theorem all_take_of_le_countLeading {p : Char → Bool} {s : Str} {j : Nat}
    (h : j ≤ countLeading p s) : (s.take j).all p = true := by
  induction s generalizing j with
  | nil => simp
  | cons c r ih =>
    rw [countLeading] at h
    split at h
    · match j with
      | 0 => simp
      | j + 1 =>
        rw [List.take_succ_cons, List.all_cons]
        simp only [Bool.and_eq_true]
        exact ⟨by assumption, ih (by omega)⟩
    · interval_cases j
      simp

theorem mem_greedyTakesCore {p : Char → Bool} {t r s : Str} {n : Nat}
    (hncl : n ≤ countLeading p s)
    (h : (t, r) ∈ (List.range n).map fun i => (s.take (n - i), s.drop (n - i))) :
    t ++ r = s ∧ t ≠ [] ∧ t.all p = true ∧ t.length ≤ n := by
  obtain ⟨i, hi, heq⟩ := by simpa using h
  have hnlen : n ≤ s.length := hncl.trans (countLeading_le_length p s)
  obtain ⟨ht, hr⟩ := heq
  have hlen : t.length = n - i := by
    rw [← ht, List.length_take]; omega
  refine ⟨?_, ?_, ?_, by omega⟩
  · rw [← ht, ← hr]; exact List.take_append_drop _ s
  · intro hnil; rw [hnil] at hlen; simp at hlen; omega
  · rw [← ht]; exact all_take_of_le_countLeading (by omega)

theorem mem_greedyTakes {p : Char → Bool} {cap : Option Nat} {t r s : Str}
    (h : (t, r) ∈ greedyTakes p cap s) :
    t ++ r = s ∧ t ≠ [] ∧ t.all p = true ∧ ∀ k, cap = some k → t.length ≤ k := by
  cases cap with
  | none =>
    have := mem_greedyTakesCore (n := countLeading p s) le_rfl (by simpa [greedyTakes] using h)
    exact ⟨this.1, this.2.1, this.2.2.1, by simp⟩
  | some k =>
    have := mem_greedyTakesCore (n := min (countLeading p s) k)
      (min_le_left _ _) (by simpa [greedyTakes] using h)
    refine ⟨this.1, this.2.1, this.2.2.1, ?_⟩
    intro k2 hk2
    have hk2e : k = k2 := by simpa using hk2
    subst hk2e
    exact this.2.2.2.trans (min_le_right _ _)

theorem mem_pairCand {p1 p2 : Char → Bool} {t r s : Str}
    (h : (t, r) ∈ pairCand p1 p2 s) :
    t ++ r = s ∧ ∃ a b, t = a :: b :: [] ∧ p1 a = true ∧ p2 b = true := by
  match s with
  | [] => simp [pairCand] at h
  | _ :: [] => simp [pairCand] at h
  | a :: b :: rest =>
    rw [pairCand] at h
    split at h
    · simp at h
      obtain ⟨ht, hr⟩ := h
      rename_i hp
      simp only [Bool.and_eq_true] at hp
      exact ⟨by subst ht hr; rfl, a, b, ht, hp.1, hp.2⟩
    · simp at h

theorem mem_singleCand {p : Char → Bool} {t r s : Str}
    (h : (t, r) ∈ singleCand p s) :
    t ++ r = s ∧ ∃ a, t = a :: [] ∧ p a = true := by
  match s with
  | [] => simp [singleCand] at h
  | a :: rest =>
    rw [singleCand] at h
    split at h
    · simp at h
      obtain ⟨ht, hr⟩ := h
      exact ⟨by subst ht hr; rfl, a, ht, by assumption⟩
    · simp at h

theorem mem_wordCand {w t r s : Str} (h : (t, r) ∈ wordCand w s) :
    t ++ r = s ∧ t.map Char.toLower = w.map Char.toLower := by
  rw [wordCand] at h
  split at h
  · simp at h
    obtain ⟨ht, hr⟩ := h
    rename_i hpre
    have hpre2 : (w.map Char.toLower) <+: (s.map Char.toLower) :=
      List.isPrefixOf_iff_prefix.mp hpre
    subst ht hr
    constructor
    · exact List.take_append_drop _ s
    · rw [List.map_take]
      have := List.prefix_iff_eq_take.mp hpre2
      rw [List.length_map] at this
      exact this.symm
  · simp at h


theorem mem_zColonCand {t r s : Str} (h : (t, r) ∈ zColonCand s) :
    t ++ r = s ∧ ∃ sg a b c d2, t = sg :: a :: b :: ':' :: c :: d2 :: [] ∧
      ((sg = '+' || sg = '-') && isD a && isD b && between '0' '5' c && isD d2) = true := by
  unfold zColonCand at h
  split at h
  · split at h
    · simp at h
      obtain ⟨ht, hr⟩ := h
      subst ht; subst hr
      exact ⟨rfl, _, _, _, _, _, rfl, by assumption⟩
    · simp at h
  · simp at h

theorem mem_zPlainCand {t r s : Str} (h : (t, r) ∈ zPlainCand s) :
    t ++ r = s ∧ ∃ sg a b c d2, t = sg :: a :: b :: c :: d2 :: [] ∧
      ((sg = '+' || sg = '-') && isD a && isD b && between '0' '5' c && isD d2) = true := by
  unfold zPlainCand at h
  split at h
  · split at h
    · simp at h
      obtain ⟨ht, hr⟩ := h
      subst ht; subst hr
      exact ⟨rfl, _, _, _, _, _, rfl, by assumption⟩
    · simp at h
  · simp at h

theorem mem_yCand {t r s : Str} (h : (t, r) ∈ yCand s) :
    t ++ r = s ∧ ∃ a b c d2, t = a :: b :: c :: d2 :: [] ∧
      (isD a && isD b && isD c && isD d2) = true := by
  unfold yCand at h
  split at h
  · split at h
    · simp at h
      obtain ⟨ht, hr⟩ := h
      subst ht; subst hr
      exact ⟨rfl, _, _, _, _, rfl, by assumption⟩
    · simp at h
  · simp at h

theorem mem_foldr_wordCand {x : Str × Str} {s : Str} {ws : List Str}
    (h : x ∈ ws.foldr (fun w acc => wordCand w s ++ acc) []) :
    ∃ w ∈ ws, x ∈ wordCand w s := by
  induction ws with
  | nil => simp at h
  | cons w rest ih =>
    simp only [List.foldr_cons, List.mem_append] at h
    cases h with
    | inl h2 => exact ⟨w, List.mem_cons_self w rest, h2⟩
    | inr h2 =>
      obtain ⟨w2, hw2, hx⟩ := ih h2
      exact ⟨w2, List.mem_cons_of_mem w hw2, hx⟩

/-- Every candidate split the matcher tries for a directive is a genuine
split of the input whose token lies in the directive's declarative
language. -/
theorem candidates_sound {ov : Bool} {dd : Dir} {t r s : Str}
    (h : (t, r) ∈ candidates ov dd s) : t ++ r = s ∧ dirTok ov dd t = true := by
  cases dd with
  | lit c =>
    obtain ⟨hs, a, ht, hp⟩ := mem_singleCand (by simpa [candidates] using h)
    subst ht
    exact ⟨hs, by simpa [dirTok] using hp⟩
  | ws =>
    obtain ⟨hs, hne, hall, _⟩ := mem_greedyTakes (by simpa [candidates] using h)
    refine ⟨hs, ?_⟩
    simp [dirTok, hall, hne]
  | Y =>
    obtain ⟨hs, a, b, c, d2, ht, hp⟩ := mem_yCand (by simpa [candidates] using h)
    subst ht
    exact ⟨hs, by simpa [dirTok] using hp⟩
  | m =>
    simp only [candidates, List.mem_append] at h
    rcases h with (h | h) | h
    · obtain ⟨hs, a, b, ht, h1, h2⟩ := mem_pairCand h
      subst ht
      exact ⟨hs, by simp [dirTok, h1, h2]⟩
    · obtain ⟨hs, a, b, ht, h1, h2⟩ := mem_pairCand h
      subst ht
      exact ⟨hs, by simp [dirTok, h1, h2]⟩
    · obtain ⟨hs, a, ht, h1⟩ := mem_singleCand h
      subst ht
      exact ⟨hs, by simp [dirTok, h1]⟩
  | d =>
    simp only [candidates, List.mem_append] at h
    rcases h with ((h | h) | h) | h
    · obtain ⟨hs, a, b, ht, h1, h2⟩ := mem_pairCand h
      subst ht
      exact ⟨hs, by simp [dirTok, h1, h2]⟩
    · obtain ⟨hs, a, b, ht, h1, h2⟩ := mem_pairCand h
      subst ht
      exact ⟨hs, by simp [dirTok, h1, h2]⟩
    · obtain ⟨hs, a, b, ht, h1, h2⟩ := mem_pairCand h
      subst ht
      exact ⟨hs, by simp [dirTok, h1, h2]⟩
    · obtain ⟨hs, a, ht, h1⟩ := mem_singleCand h
      subst ht
      exact ⟨hs, by simp [dirTok, h1]⟩
  | H =>
    simp only [candidates, List.mem_append] at h
    rcases h with (h | h) | h
    · obtain ⟨hs, a, b, ht, h1, h2⟩ := mem_pairCand h
      subst ht
      exact ⟨hs, by simp [dirTok, h1, h2]⟩
    · obtain ⟨hs, a, b, ht, h1, h2⟩ := mem_pairCand h
      subst ht
      exact ⟨hs, by simp [dirTok, h1, h2]⟩
    · obtain ⟨hs, a, ht, h1⟩ := mem_singleCand h
      subst ht
      exact ⟨hs, by simp [dirTok, h1]⟩
  | M =>
    simp only [candidates, List.mem_append] at h
    rcases h with h | h
    · obtain ⟨hs, a, b, ht, h1, h2⟩ := mem_pairCand h
      subst ht
      exact ⟨hs, by simp [dirTok, h1, h2]⟩
    · obtain ⟨hs, a, ht, h1⟩ := mem_singleCand h
      subst ht
      exact ⟨hs, by simp [dirTok, h1]⟩
  | S =>
    simp only [candidates, List.mem_append] at h
    rcases h with (h | h) | h
    · obtain ⟨hs, a, b, ht, h1, h2⟩ := mem_pairCand h
      subst ht
      exact ⟨hs, by simp [dirTok, h1, h2]⟩
    · obtain ⟨hs, a, b, ht, h1, h2⟩ := mem_pairCand h
      subst ht
      exact ⟨hs, by simp [dirTok, h1, h2]⟩
    · obtain ⟨hs, a, ht, h1⟩ := mem_singleCand h
      subst ht
      exact ⟨hs, by simp [dirTok, h1]⟩
  | f =>
    obtain ⟨hs, hne, hall, hcap⟩ := mem_greedyTakes (by simpa [candidates] using h)
    refine ⟨hs, ?_⟩
    have hlen6 : t.length ≤ 6 := hcap 6 rfl
    have hlen1 : 1 ≤ t.length := by
      cases t with
      | nil => exact absurd rfl hne
      | cons _ _ => simp
    simp [dirTok, hall, hlen6, hlen1]
  | z =>
    cases ov with
    | false =>
      obtain ⟨hs, sg, a, b, c, d2, ht, hp⟩ :=
        mem_zPlainCand (by simpa [candidates, zCands] using h)
      subst ht
      exact ⟨hs, by simpa [dirTok] using hp⟩
    | true =>
      have h2 : (t, r) ∈ zColonCand s ++ zPlainCand s := by simpa [candidates, zCands] using h
      rcases List.mem_append.mp h2 with h3 | h3
      · obtain ⟨hs, sg, a, b, c, d2, ht, hp⟩ := mem_zColonCand h3
        subst ht
        exact ⟨hs, by simpa [dirTok] using hp⟩
      · obtain ⟨hs, sg, a, b, c, d2, ht, hp⟩ := mem_zPlainCand h3
        subst ht
        exact ⟨hs, by simpa [dirTok] using hp⟩
  | Z =>
    cases ov with
    | true =>
      obtain ⟨hs, hne, hall, _⟩ := mem_greedyTakes (by simpa [candidates] using h)
      refine ⟨hs, ?_⟩
      simp [dirTok, hall, hne]
    | false =>
      obtain ⟨w, hw, hx⟩ := mem_foldr_wordCand (by simpa [candidates] using h)
      obtain ⟨hs, heq⟩ := mem_wordCand hx
      refine ⟨hs, ?_⟩
      simp only [dirTok, Bool.if_false_left, Bool.if_true_left]
      exact List.any_eq_true.mpr ⟨w, hw, by simp [heq]⟩

/-- Soundness of the backtracking matcher: a successful match splits the
input into a consumed part that declaratively matches the directive list
(producing exactly the returned bindings) and the returned remainder. -/
theorem matchDirs_sound {ov : Bool} {ds : List Dir} {s : Str} {bs : TokenMap} {r : Str}
    (h : matchDirs ov ds s = some (bs, r)) :
    ∃ t, t ++ r = s ∧ MatchesD ov ds t bs := by
  induction ds generalizing s bs r with
  | nil =>
    rw [matchDirs] at h
    simp only [Option.some.injEq, Prod.mk.injEq] at h
    obtain ⟨hbs, hr⟩ := h
    subst hbs
    exact ⟨[], by simp [hr], MatchesD.nil⟩
  | cons dd ds ih =>
    rw [matchDirs] at h
    obtain ⟨⟨t0, r0⟩, hmem, hf⟩ := firstSome_eq_some h
    simp only at hf
    obtain ⟨⟨bs1, r1⟩, hrec, heq⟩ := Option.map_eq_some'.mp hf
    simp only [Prod.mk.injEq] at heq
    obtain ⟨hbs, hr⟩ := heq
    subst hbs; subst hr
    obtain ⟨hsplit, htok⟩ := candidates_sound hmem
    obtain ⟨t1, ht1, hm⟩ := ih hrec
    refine ⟨t0 ++ t1, ?_, MatchesD.cons htok hm⟩
    rw [List.append_assoc, ht1, hsplit]

/-- End-to-end matcher soundness, phrased for the tokenizer's success case. -/
theorem matchDirs_sound_full {ov : Bool} {ds : List Dir} {s : Str} {bs : TokenMap}
    (h : matchDirs ov ds s = some (bs, [])) : MatchesD ov ds s bs := by
  obtain ⟨t, ht, hm⟩ := matchDirs_sound h
  rw [List.append_nil] at ht
  rwa [ht] at hm

instance {ε α : Type} [DecidableEq ε] [DecidableEq α] : DecidableEq (Except ε α) := fun a b =>
  match a, b with
  | .ok x, .ok y =>
    if h : x = y then isTrue (by rw [h]) else isFalse (by intro hc; injection hc; contradiction)
  | .error x, .error y =>
    if h : x = y then isTrue (by rw [h]) else isFalse (by intro hc; injection hc; contradiction)
  | .ok _, .error _ => isFalse (by intro hc; injection hc)
  | .error _, .ok _ => isFalse (by intro hc; injection hc)

-- region claim theorems

theorem lookup_some_not_empty {tm : TokenMap} {g : Char} {v : Str}
    (h : tm.lookup g = some v) : tm.isEmpty = false := by
  cases tm with
  | nil => simp [List.lookup] at h
  | cons p rest => simp [List.isEmpty]

theorem tdiv_then_fdiv_thousand (n : Nat) :
    Int.fdiv (Int.tdiv ((n : Nat) : Int) 1000) 1000 = Int.fdiv ((n : Nat) : Int) 1000000 := by
  have h1000 : (1000 : Int) = ((1000 : Nat) : Int) := rfl
  have h1000000 : (1000000 : Int) = ((1000000 : Nat) : Int) := rfl
  rw [h1000, h1000000, ← Int.ofNat_tdiv, ← Int.ofNat_fdiv, ← Int.ofNat_fdiv,
    Nat.div_div_eq_div_mul]

/-- C1: the spec says an unresolvable zone spec raises `UnresolvedTimezone`
propagated to the caller; the code instead lets `_get_tz` return `None`
silently and hands back a naive datetime (contradicting the function's own
docstring, which promises "a datetime object with tzinfo set"). -/
theorem c1_unresolvable_tz_returns_naive_not_error :
    get_tz (.name ("Bogus/Zone".toList)) = none ∧
    datetime_with_tz (.str ("2020-01-01 00:00:00".toList)) DATETIME_FMT_NO_TZ
        (.name ("Bogus/Zone".toList)) false true =
      .ok { naive := { year := 2020, month := 1, day := 1, hour := 0, minute := 0,
                       second := 0, micro := 0 },
            tz := none } := by
  constructor
  · decide
  · decide

/-- C2: the spec says every returned datetime is aware; with no explicit
`tz` and a captured `%Z` token that resolves to no zone, the code attaches
`None` and returns a naive datetime. -/
theorem c2_unresolved_name_token_yields_naive :
    datetime_with_tz (.str ("2020-01-01 00:00:00 FOO".toList)) DATETIME_FMT
        .noTz false true =
      .ok { naive := { year := 2020, month := 1, day := 1, hour := 0, minute := 0,
                       second := 0, micro := 0 },
            tz := none } := by decide

/-- C10: a datetime-object input that already carries a timezone is
returned unchanged by `datetime_with_tz`, whatever `fmt` and `tz` are. -/
theorem c10_aware_datetime_passthrough (d : DT) (fmt : Str) (tz : TZArg) (avail : Bool)
    (h : d.tz.isSome = true) :
    datetime_with_tz (.dt d) fmt tz false avail = .ok d := by
  unfold datetime_with_tz attachTz
  simp [h]

theorem c10_aware_datetime_passthrough_witness :
    datetime_with_tz
        (.dt { naive := { year := 2020, month := 6, day := 1, hour := 12, minute := 0,
                          second := 0, micro := 0 },
               tz := some (.iana ("America/Chicago".toList)) })
        DATETIME_FMT (.name ("UTC".toList)) false true =
      .ok { naive := { year := 2020, month := 6, day := 1, hour := 12, minute := 0,
                       second := 0, micro := 0 },
            tz := some (.iana ("America/Chicago".toList)) } :=
  c10_aware_datetime_passthrough
    { naive := { year := 2020, month := 6, day := 1, hour := 12, minute := 0,
                 second := 0, micro := 0 },
      tz := some (.iana ("America/Chicago".toList)) }
    DATETIME_FMT (.name ("UTC".toList)) true rfl

/-- C7: requesting natural-language parsing with the `dateparser`
collaborator absent fails immediately with the dedicated
`missingDependency` error (a `RuntimeError`, not a generic `ImportError`),
and callers that do not request that mode are unaffected by the
collaborator's availability. -/
theorem c7_missing_dateparser_dependency (dt : DTInput) (fmt : Str) (tz : TZArg) :
    datetime_with_tz dt fmt tz true false = .error .missingDependency ∧
    ∀ a b : Bool, datetime_with_tz dt fmt tz false a = datetime_with_tz dt fmt tz false b := by
  constructor
  · rfl
  · intro a b
    rfl

/-- C8 (counterexample): for a pre-epoch timestamp with fractional seconds
the claimed floor semantics fail — the parsed instant is
1969-12-31 23:59:58.999500 UTC, whose exact epoch value has floor −2
seconds, yet `str2epoch` returns −1 (Python's `int()` truncates the
millisecond value toward zero before the floor division). -/
theorem c8_str2epoch_pre_epoch_counterexample :
    str2epoch (.str ("1969-12-31 23:59:58.999500".toList))
        ("%Y-%m-%d %H:%M:%S.%f".toList) false (.name ("UTC".toList)) = .ok (-1) ∧
    datetime_with_tz (.str ("1969-12-31 23:59:58.999500".toList))
        ("%Y-%m-%d %H:%M:%S.%f".toList) (.name ("UTC".toList)) false true =
      .ok { naive := { year := 1969, month := 12, day := 31, hour := 23, minute := 59,
                       second := 58, micro := 999500 },
            tz := some (.iana ("UTC".toList)) } ∧
    Int.fdiv
      (timestampMicro
        { naive := { year := 1969, month := 12, day := 31, hour := 23, minute := 59,
                     second := 58, micro := 999500 },
          tz := some (.iana ("UTC".toList)) }) 1000000 = -2 := by
  refine ⟨by decide, by decide, by decide⟩

/-- C8 (amended): for every input whose parsed timestamp has a nonnegative
exact epoch value, `str2epoch` with `millis=False` returns the floor of the
exact epoch-seconds value, so sub-second precision is truncated; before the
epoch the `int()`-then-floor-divide composition can differ from the floor. -/
theorem c8_str2epoch_truncates_nonneg (dt : DTInput) (fmt : Str) (tz : TZArg) (d0 : DT)
    (h : datetime_with_tz dt fmt tz false true = .ok d0)
    (hpos : 0 ≤ timestampMicro d0) :
    str2epoch dt fmt false tz = .ok (Int.fdiv (timestampMicro d0) 1000000) := by
  unfold str2epoch
  rw [h]
  simp only [Bool.false_eq_true, if_false]
  obtain ⟨n, hn⟩ := Int.eq_ofNat_of_zero_le hpos
  rw [hn, tdiv_then_fdiv_thousand]

theorem c8_str2epoch_truncates_nonneg_witness :
    str2epoch (.str ("2020-01-01 00:00:00.500000".toList))
        ("%Y-%m-%d %H:%M:%S.%f".toList) false (.name ("UTC".toList)) = .ok 1577836800 := by
  have h := c8_str2epoch_truncates_nonneg
    (.str ("2020-01-01 00:00:00.500000".toList)) ("%Y-%m-%d %H:%M:%S.%f".toList)
    (.name ("UTC".toList))
    { naive := { year := 2020, month := 1, day := 1, hour := 0, minute := 0,
                 second := 0, micro := 500000 },
      tz := some (.iana ("UTC".toList)) }
    (by decide) (by decide)
  exact h.trans (by decide)

/-- C9: `format_duration` decomposes the absolute value by successive
integer division by 60, 60, 24 — equivalently seconds/minutes/hours/days
are `|n| % 60`, `|n|/60 % 60`, `|n|/3600 % 24`, `|n|/86400` — rendered
`HH:MM:SS` with two-digit zero padding, `Dd` prepended when days are
positive and `-` when the input was negative.  The same decomposition law
holds for every float input (exact value `m / 2^e` seconds), whose seconds
field is rendered `SS.ff` with two decimal digits, the exact remainder
rounded half to even as `'{:05.2f}'` does.  In particular
`format_duration(-3725) = "-01:02:05"`, `format_duration(90061) =
"1d01:01:01"`, `format_duration(3.5) = "00:00:03.50"`, and at the genuine
binary tie 0.125 s the rendering rounds to even:
`format_duration(0.125) = "00:00:00.12"`. -/
theorem c9_format_duration_decomposition :
    (∀ n : Int, format_duration (.int n) =
      (if n < 0 then "-" else "") ++
        (if n.natAbs / 86400 > 0 then Nat.repr (n.natAbs / 86400) ++ "d" else "") ++
        pad2 (n.natAbs / 3600 % 24) ++ ":" ++ pad2 (n.natAbs / 60 % 60) ++ ":" ++
        pad2 (n.natAbs % 60)) ∧
    (∀ (m : Int) (e : Nat), format_duration (.float m e) =
      (if m < 0 then "-" else "") ++
        (if m.natAbs / (86400 * 2 ^ e) > 0 then
          Nat.repr (m.natAbs / (86400 * 2 ^ e)) ++ "d" else "") ++
        pad2 (m.natAbs / (3600 * 2 ^ e) % 24) ++ ":" ++
        pad2 (m.natAbs / (60 * 2 ^ e) % 60) ++ ":" ++
        pad2 (roundHalfEvenNat (100 * (m.natAbs % (60 * 2 ^ e))) (2 ^ e) / 100) ++ "." ++
        pad2 (roundHalfEvenNat (100 * (m.natAbs % (60 * 2 ^ e))) (2 ^ e) % 100)) ∧
    format_duration (.int (-3725)) = "-01:02:05" ∧
    format_duration (.int 90061) = "1d01:01:01" ∧
    format_duration (.float 7 1) = "00:00:03.50" ∧
    format_duration (.float 1 3) = "00:00:00.12" := by
  refine ⟨?_, ?_, by decide, by decide, by decide, by decide⟩
  · intro n
    simp only [format_duration]
    simp only [Nat.div_div_eq_div_mul]
    norm_num
    split_ifs <;> simp [String.append_assoc, String.append_empty]
  · intro m e
    have h1 : ∀ a : Nat, a / (60 * 2 ^ e) / 60 = a / (3600 * 2 ^ e) := fun a => by
      rw [Nat.div_div_eq_div_mul]
      congr 1
      ring
    have h2 : ∀ a : Nat, a / (3600 * 2 ^ e) / 24 = a / (86400 * 2 ^ e) := fun a => by
      rw [Nat.div_div_eq_div_mul]
      congr 1
      ring
    simp only [format_duration]
    simp only [h1, h2]
    split_ifs <;> simp [String.append_assoc, String.append_empty]

/-- C3: with a format containing a name/offset placeholder and an explicit
`tz` argument, the captured offset/name token is discarded: the format is
reduced, the input rebuilt from the other tokens, and the strict-parsed
wall clock is localized to the caller's zone. -/
theorem c3_explicit_tz_overrides_captured_token
    (s fmt tzName : Str) (tokens : TokenMap) (d0 : DT) (tzo : Tz) (avail : Bool)
    (hfmt : hasUnescapedZDirective fmt = true)
    (htzn : tzName ≠ [])
    (htok : tokenize_datetime s fmt = .ok tokens)
    (hres : get_tz (.name tzName) = some tzo)
    (hparse : strptime
        (recompile_datetime tokens
          (replaceAll (replaceAll fmt ('%' :: 'z' :: []) []) ('%' :: 'Z' :: []) []))
        (replaceAll (replaceAll fmt ('%' :: 'z' :: []) []) ('%' :: 'Z' :: []) []) = .ok d0)
    (hnaive : d0.tz = none) :
    datetime_with_tz (.str s) fmt (.name tzName) false avail =
      .ok { naive := d0.naive, tz := some tzo } := by
  have htzb : tzTruthy (.name tzName) = true := by
    simp [tzTruthy, htzn]
  unfold datetime_with_tz parse_dt_from_str strptimeWithRetry attachTz
  simp only [hfmt, htok, htzb, hparse, hnaive, hres, if_true, Bool.false_eq_true, if_false,
    Option.isSome_none]

theorem c3_explicit_tz_overrides_captured_token_witness :
    datetime_with_tz (.str ("2020-06-01 12:00:00 UTC".toList)) DATETIME_FMT
        (.name ("America/Chicago".toList)) false true =
      .ok { naive := { year := 2020, month := 6, day := 1, hour := 12, minute := 0,
                       second := 0, micro := 0 },
            tz := some (.iana ("America/Chicago".toList)) } :=
  c3_explicit_tz_overrides_captured_token
    ("2020-06-01 12:00:00 UTC".toList) DATETIME_FMT ("America/Chicago".toList)
    (('Y', "2020".toList) :: ('m', "06".toList) :: ('d', "01".toList) ::
      ('H', "12".toList) :: ('M', "00".toList) :: ('S', "00".toList) ::
      ('Z', "UTC".toList) :: [])
    { naive := { year := 2020, month := 6, day := 1, hour := 12, minute := 0,
                 second := 0, micro := 0 },
      tz := none }
    (.iana ("America/Chicago".toList)) true
    (by decide) (by decide) (by decide) (by decide) (by decide) rfl

/-- C4: with a name placeholder, no explicit `tz`, and a captured name
token that is a valid IANA identifier, the strict parse fails on the stock
`%Z` pattern, the name placeholder is dropped and the parse retried, and
the resolved identifier is attached as the result's zone. -/
theorem c4_name_token_resolved_via_drop_retry
    (s fmt : Str) (tokens : TokenMap) (n : Str) (tzo : Tz) (d0 : DT) (e0 : Str) (avail : Bool)
    (hfmt : hasUnescapedZDirective fmt = true)
    (htok : tokenize_datetime s fmt = .ok tokens)
    (hz : tokens.lookup 'z' = none)
    (hZ : tokens.lookup 'Z' = some n)
    (hne : n ≠ [])
    (hres : gettz n = some tzo)
    (hfail : strptime s fmt = .error (.valueError e0))
    (hdnmf : substrCheck dnmfPhrase e0 = true)
    (hretry : strptime (recompile_datetime tokens (replaceAll fmt ('%' :: 'Z' :: []) []))
        (replaceAll fmt ('%' :: 'Z' :: []) []) = .ok d0)
    (hnaive : d0.tz = none) :
    datetime_with_tz (.str s) fmt .noTz false avail =
      .ok { naive := d0.naive, tz := some tzo } := by
  have hemp : tokens.isEmpty = false := lookup_some_not_empty hZ
  have hnemp : n.isEmpty = false := by
    cases n with
    | nil => exact absurd rfl hne
    | cons c r => simp [List.isEmpty]
  unfold datetime_with_tz parse_dt_from_str strptimeWithRetry attachTz errHasDNMF get_tz
  simp only [hfmt, htok, hfail, hemp, hdnmf, hz, hZ, hne, hnemp, hretry, hnaive, hres,
    tzTruthy, if_true, Bool.false_eq_true, if_false, Option.isSome_some, Option.isSome_none,
    Bool.true_eq_false]

theorem c4_name_token_resolved_via_drop_retry_witness :
    datetime_with_tz (.str ("2020-01-01 00:00:00 America/New_York".toList)) DATETIME_FMT
        .noTz false true =
      .ok { naive := { year := 2020, month := 1, day := 1, hour := 0, minute := 0,
                       second := 0, micro := 0 },
            tz := some (.iana ("America/New_York".toList)) } :=
  c4_name_token_resolved_via_drop_retry
    ("2020-01-01 00:00:00 America/New_York".toList) DATETIME_FMT
    (('Y', "2020".toList) :: ('m', "01".toList) :: ('d', "01".toList) ::
      ('H', "00".toList) :: ('M', "00".toList) :: ('S', "00".toList) ::
      ('Z', "America/New_York".toList) :: [])
    ("America/New_York".toList) (.iana ("America/New_York".toList))
    { naive := { year := 2020, month := 1, day := 1, hour := 0, minute := 0,
                 second := 0, micro := 0 },
      tz := none }
    (noMatchMsgStrptime ("2020-01-01 00:00:00 America/New_York".toList) DATETIME_FMT) true
    (by decide) (by decide) (by decide) (by decide) (by decide) (by decide) (by decide)
    (by decide) (by decide) rfl

/-- C5: when the captured `%z` offset token contains a colon the strict
parse fails, the colon is stripped from the token and the parse retried on
the rebuilt input — which is exactly the colon-less sibling input string —
so both spellings of the offset parse to the same datetime (and hence the
identical absolute instant). -/
theorem c5_offset_colon_and_plain_same_instant
    (s s2 fmt : Str) (tokens tokens2 : TokenMap) (v : Str) (d1 : DT) (tzo : Tz) (e0 : Str)
    (avail : Bool)
    (hfmt : hasUnescapedZDirective fmt = true)
    (htok : tokenize_datetime s fmt = .ok tokens)
    (hz : tokens.lookup 'z' = some v)
    (hcolon : v.contains ':' = true)
    (hfail : strptime s fmt = .error (.valueError e0))
    (hdnmf : substrCheck dnmfPhrase e0 = true)
    (hs2 : s2 = recompile_datetime (updateTok 'z' (v.filter (fun c => ¬ c = ':')) tokens) fmt)
    (hretry : strptime s2 fmt = .ok d1)
    (haware : d1.tz = some tzo)
    (htok2 : tokenize_datetime s2 fmt = .ok tokens2) :
    datetime_with_tz (.str s) fmt .noTz false avail = .ok d1 ∧
    datetime_with_tz (.str s2) fmt .noTz false avail = .ok d1 := by
  have hemp : tokens.isEmpty = false := lookup_some_not_empty hz
  constructor
  · subst hs2
    unfold datetime_with_tz parse_dt_from_str strptimeWithRetry attachTz errHasDNMF
    simp only [hfmt, htok, hfail, hemp, hdnmf, hz, hcolon, Option.getD_some, hretry, haware,
      tzTruthy, if_true, Bool.false_eq_true, if_false, Option.isSome_some]
  · unfold datetime_with_tz parse_dt_from_str strptimeWithRetry attachTz
    simp only [hfmt, htok2, hretry, haware, tzTruthy, if_true, Bool.false_eq_true, if_false,
      Option.isSome_some]

theorem c5_offset_colon_and_plain_same_instant_witness :
    datetime_with_tz (.str ("2020-01-01 00:00:00 +05:30".toList))
        ("%Y-%m-%d %H:%M:%S %z".toList) .noTz false true =
      .ok { naive := { year := 2020, month := 1, day := 1, hour := 0, minute := 0,
                       second := 0, micro := 0 },
            tz := some (.offset 330) } ∧
    datetime_with_tz (.str ("2020-01-01 00:00:00 +0530".toList))
        ("%Y-%m-%d %H:%M:%S %z".toList) .noTz false true =
      .ok { naive := { year := 2020, month := 1, day := 1, hour := 0, minute := 0,
                       second := 0, micro := 0 },
            tz := some (.offset 330) } :=
  c5_offset_colon_and_plain_same_instant
    ("2020-01-01 00:00:00 +05:30".toList) ("2020-01-01 00:00:00 +0530".toList)
    ("%Y-%m-%d %H:%M:%S %z".toList)
    (('Y', "2020".toList) :: ('m', "01".toList) :: ('d', "01".toList) ::
      ('H', "00".toList) :: ('M', "00".toList) :: ('S', "00".toList) ::
      ('z', "+05:30".toList) :: [])
    (('Y', "2020".toList) :: ('m', "01".toList) :: ('d', "01".toList) ::
      ('H', "00".toList) :: ('M', "00".toList) :: ('S', "00".toList) ::
      ('z', "+0530".toList) :: [])
    ("+05:30".toList)
    { naive := { year := 2020, month := 1, day := 1, hour := 0, minute := 0,
                 second := 0, micro := 0 },
      tz := some (.offset 330) }
    (.offset 330)
    (noMatchMsgStrptime ("2020-01-01 00:00:00 +05:30".toList)
      ("%Y-%m-%d %H:%M:%S %z".toList)) true
    (by decide) (by decide) (by decide) (by decide) (by decide) (by decide) (by decide)
    (by decide) rfl (by decide)

/-- C6: the tokenizer fails exactly when the compiled pattern does not
match the whole input — no match yields the `does not match format` error,
a match with unconsumed input yields an error reporting the remainder —
and a successful tokenization returns bindings that genuinely match the
format's directives end to end (declarative soundness). -/
theorem c6_tokenize_fails_iff_no_full_match
    (s fmt : Str) (ds : List Dir) (hds : fmtToDirs fmt = some ds) :
    (matchDirs true ds s = none →
      tokenize_datetime s fmt = .error (.valueError (noMatchMsgTok s fmt))) ∧
    (∀ bs r, matchDirs true ds s = some (bs, r) → r ≠ [] →
      tokenize_datetime s fmt = .error (.valueError (remainderMsg r))) ∧
    (∀ bs, matchDirs true ds s = some (bs, []) → tokenize_datetime s fmt = .ok bs) ∧
    (∀ bs, tokenize_datetime s fmt = .ok bs → MatchesD true ds s bs) := by
  refine ⟨?_, ?_, ?_, ?_⟩
  · intro h
    unfold tokenize_datetime
    simp only [hds, h]
  · intro bs r h hr
    unfold tokenize_datetime
    simp only [hds, h]
    simp [hr]
  · intro bs h
    unfold tokenize_datetime
    simp only [hds, h, if_true]
  · intro bs h
    unfold tokenize_datetime at h
    simp only [hds] at h
    cases hm : matchDirs true ds s with
    | none =>
      simp only [hm] at h
      exact Except.noConfusion h
    | some pr =>
      obtain ⟨bs2, r2⟩ := pr
      simp only [hm] at h
      by_cases hr : r2 = []
      · subst hr
        obtain rfl : bs2 = bs := by simpa using h
        exact matchDirs_sound_full hm
      · simp [hr] at h

theorem c6_tokenize_fails_iff_no_full_match_witness :
    tokenize_datetime ("2020-06-01 12:00:00 UTC".toList) DATETIME_FMT =
      .ok (('Y', "2020".toList) :: ('m', "06".toList) :: ('d', "01".toList) ::
        ('H', "12".toList) :: ('M', "00".toList) :: ('S', "00".toList) ::
        ('Z', "UTC".toList) :: []) ∧
    MatchesD true
      (Dir.Y :: Dir.lit '-' :: Dir.m :: Dir.lit '-' :: Dir.d :: Dir.ws :: Dir.H ::
        Dir.lit ':' :: Dir.M :: Dir.lit ':' :: Dir.S :: Dir.ws :: Dir.Z :: [])
      ("2020-06-01 12:00:00 UTC".toList)
      (('Y', "2020".toList) :: ('m', "06".toList) :: ('d', "01".toList) ::
        ('H', "12".toList) :: ('M', "00".toList) :: ('S', "00".toList) ::
        ('Z', "UTC".toList) :: []) := by
  have h := c6_tokenize_fails_iff_no_full_match ("2020-06-01 12:00:00 UTC".toList)
    DATETIME_FMT
    (Dir.Y :: Dir.lit '-' :: Dir.m :: Dir.lit '-' :: Dir.d :: Dir.ws :: Dir.H ::
      Dir.lit ':' :: Dir.M :: Dir.lit ':' :: Dir.S :: Dir.ws :: Dir.Z :: [])
    (by decide)
  have hok := h.2.2.1
    (('Y', "2020".toList) :: ('m', "06".toList) :: ('d', "01".toList) ::
      ('H', "12".toList) :: ('M', "00".toList) :: ('S', "00".toList) ::
      ('Z', "UTC".toList) :: [])
    (by decide)
  exact ⟨hok, h.2.2.2 _ hok⟩
